import Mathlib

/-!
Shallow embedding of `bezier.py` (cubic Bézier curve editor).

Modelling conventions:
* Python floats are modelled as exact rationals (`ℚ`); the program's
  arithmetic on the values that the claims touch is exact at this scale.
* `pygame.Rect` stores C `int` fields; assigning a float truncates toward
  zero.  Rect centers are therefore modelled as `ℤ`, and the construction
  of a control point truncates its float pixel coordinates via `truncQ`.
  For the 15-pixel-wide handle (odd width) reading `centerx` back after
  assigning it returns exactly the assigned integer, so the center pair
  is a faithful state representation.
* Python's `round(x, 2)` rounds half to even; `get_control_points` below
  uses Mathlib's `round` (half up at ties).  For every value reachable here the
  scaled quantity `100*x` has denominator 7, which is never a half
  integer, so the two rounding rules agree on all relevant inputs.
* Mouse deltas and positions from pygame are integers (`ℤ × ℤ`).
-/

/-- Truncation toward zero of a rational, as C float→int conversion does. -/
def truncQ (q : ℚ) : ℤ := if 0 ≤ q then ⌊q⌋ else ⌈q⌉

def WIDTH : ℚ := 800
def HEIGHT : ℚ := 800
def GRAPH_WIDTH : ℚ := 7 / 8 * WIDTH
def GRAPH_MARGIN : ℚ := (WIDTH - GRAPH_WIDTH) / 2
def GRAPH_SIZE : ℚ := GRAPH_MARGIN + GRAPH_WIDTH

/-- Source `vectormult(multiplier, vector)`. -/
def vectormult (multiplier : ℚ) (vector : ℚ × ℚ) : ℚ × ℚ :=
  (multiplier * vector.1, multiplier * vector.2)

/-- Source `vectoradd(*vectors)`: component-wise sum. -/
def vectoradd (vectors : List (ℚ × ℚ)) : ℚ × ℚ :=
  ((vectors.map Prod.fst).sum, (vectors.map Prod.snd).sum)

/-- State of `Control_Point`: the rect is determined by its integer center
and its (constant) diameter, plus the selection flag. -/
structure Control_Point where
  centerx : ℤ
  centery : ℤ
  diameter : ℤ
  selected : Bool
  deriving DecidableEq, Repr

namespace Control_Point

/-- Constructor `Control_Point.__init__(position, diameter)`: map normalized curve
coordinates to pixel coordinates (y axis flipped), truncated to the
integer rect center. -/
def create (position : ℚ × ℚ) (diameter : ℤ) : Control_Point :=
  { centerx := truncQ (position.1 * GRAPH_WIDTH + GRAPH_MARGIN)
    centery := truncQ ((1 - position.2) * GRAPH_WIDTH + GRAPH_MARGIN)
    diameter := diameter
    selected := false }

/-- Method `Control_Point.normalize()`. -/
def normalize (c : Control_Point) : ℚ × ℚ :=
  (((c.centerx : ℚ) - GRAPH_MARGIN) / GRAPH_WIDTH,
   ((c.centery : ℚ) - GRAPH_MARGIN) / GRAPH_WIDTH)

/-- Method `Control_Point.check_click(mouse_pos)`: `rect.collidepoint` is true for
points inside the rect (left/top edges inclusive, right/bottom exclusive);
the rect's top-left corner is `center - diameter // 2`. -/
def check_click (c : Control_Point) (mouse_pos : ℤ × ℤ) : Control_Point :=
  if c.centerx - c.diameter / 2 ≤ mouse_pos.1 ∧
      mouse_pos.1 < c.centerx - c.diameter / 2 + c.diameter ∧
      c.centery - c.diameter / 2 ≤ mouse_pos.2 ∧
      mouse_pos.2 < c.centery - c.diameter / 2 + c.diameter then
    { c with selected := true }
  else c

/-- Method `Control_Point.update(mouse_rel)` (the drag operation): returns the bool
result and the new state.  The x move is clamped to
`[GRAPH_MARGIN, GRAPH_SIZE] = [50, 750]`; y is unclamped. -/
def update (c : Control_Point) (mouse_rel : ℤ × ℤ) : Bool × Control_Point :=
  if !c.selected then
    (false, c)
  else
    (true,
     { c with
        centerx := max 50 (min (c.centerx + mouse_rel.1) 750)
        centery := c.centery + mouse_rel.2 })

end Control_Point

/-- The cubic Bézier point appended in one iteration of
`Bezier._calculate_bezier`, with `p0 = (0,1)`, `p3 = (1,0)`. -/
def bezierPoint (q1 q2 : ℚ × ℚ) (t : ℚ) : ℚ × ℚ :=
  vectoradd
    [vectormult ((1 - t) ^ 3) (0, 1),
     vectormult (3 * (1 - t) ^ 2 * t) q1,
     vectormult (3 * (1 - t) * t ^ 2) q2,
     vectormult (t ^ 3) (1, 0)]

/-- The `while t <= 1 + granularity` loop of `Bezier._calculate_bezier`,
collecting the curve points from the start value `t`.  The `0 < g`
conjunct is required for termination; the source always runs the loop
with a positive granularity. -/
def calcLoop (q1 q2 : ℚ × ℚ) (g : ℚ) (t : ℚ) : List (ℚ × ℚ) :=
  if h : 0 < g ∧ t ≤ 1 + g then
    bezierPoint q1 q2 t :: calcLoop q1 q2 g (t + g)
  else []
termination_by (⌈(1 + g - t) / g⌉ + 1).toNat
decreasing_by
  obtain ⟨hg, ht⟩ := h
  have h0 : (0 : ℚ) ≤ (1 + g - t) / g := div_nonneg (by linarith) hg.le
  have hc : 0 ≤ ⌈(1 + g - t) / g⌉ := Int.ceil_nonneg h0
  have he : (1 + g - (t + g)) / g = (1 + g - t) / g - 1 := by
    have h1 : 1 + g - (t + g) = (1 + g - t) - g := by ring
    rw [h1, sub_div, div_self hg.ne']
  rw [he, Int.ceil_sub_one]
  omega

/-- Method `Bezier._scale` applied to one point. -/
def scalePoint (p : ℚ × ℚ) : ℚ × ℚ :=
  vectoradd [vectormult GRAPH_WIDTH p, (GRAPH_MARGIN, GRAPH_MARGIN)]

/-- State of `Bezier`: the stored step `granularity` (already `1/N`), the
two control points and the sample list `points`. -/
structure Bezier where
  granularity : ℚ
  p1 : Control_Point
  p2 : Control_Point
  points : List (ℚ × ℚ)
  deriving DecidableEq, Repr

namespace Bezier

/-- Method `Bezier.generate_bezier()`: `_calculate_bezier` from the normalized
control points followed by `_scale`. -/
def generate_bezier (b : Bezier) : Bezier :=
  { b with
      points :=
        (calcLoop b.p1.normalize b.p2.normalize b.granularity 0).map
          scalePoint }

/-- Constructor `Bezier.__init__(p1, p2, granularity=60)`. -/
def create (q1 q2 : ℚ × ℚ) (granularity : ℕ) : Bezier :=
  generate_bezier
    { granularity := 1 / (granularity : ℚ)
      p1 := Control_Point.create q1 15
      p2 := Control_Point.create q2 15
      points := [] }

/-- Method `Bezier.get_control_points()`: normalized coordinates, y flipped back
to the display convention, each rounded to two decimals. -/
def get_control_points (b : Bezier) : List ℚ :=
  let n1 := b.p1.normalize
  let n2 := b.p2.normalize
  [round ((n1.1 : ℚ) * 100) / 100,
   round ((1 - n1.2) * 100) / 100,
   round ((n2.1 : ℚ) * 100) / 100,
   round ((1 - n2.2) * 100) / 100]

/-- Method `Bezier.update(mouse_rel)`: Python's `or` short-circuits, so
`p2.update` is evaluated only when `p1.update` returned `False`. -/
def update (b : Bezier) (mouse_rel : ℤ × ℤ) : Bool × Bezier :=
  let r1 := b.p1.update mouse_rel
  if r1.1 then
    (true, generate_bezier { b with p1 := r1.2 })
  else
    let r2 := b.p2.update mouse_rel
    if r2.1 then
      (true, generate_bezier { b with p1 := r1.2, p2 := r2.2 })
    else
      (false, { b with p1 := r1.2, p2 := r2.2 })

/-- Method `Bezier.check_click(mouse_pos)`. -/
def check_click (b : Bezier) (mouse_pos : ℤ × ℤ) : Bezier :=
  { b with
      p1 := b.p1.check_click mouse_pos
      p2 := b.p2.check_click mouse_pos }

/-- Method `Bezier.deselect()`. -/
def deselect (b : Bezier) : Bezier :=
  { b with
      p1 := { b.p1 with selected := false }
      p2 := { b.p2 with selected := false } }

end Bezier

/-- The control-point operations a user session can apply after
construction: hit-testing a click, dragging by a delta, deselecting. -/
inductive CPOp where
  | click (pos : ℤ × ℤ)
  | drag (rel : ℤ × ℤ)
  | deselect

/-- Apply one operation to a control point. -/
def applyOp (c : Control_Point) : CPOp → Control_Point
  | .click pos => c.check_click pos
  | .drag rel => (c.update rel).2
  | .deselect => { c with selected := false }

/-- Apply a sequence of operations to a control point. -/
def applyOps (c : Control_Point) (ops : List CPOp) : Control_Point :=
  ops.foldl applyOp c

lemma truncQ_intCast (n : ℤ) : truncQ (n : ℚ) = n := by
  unfold truncQ
  split <;> simp

lemma le_truncQ_of_le {a : ℤ} {q : ℚ} (ha : 0 ≤ a) (h : (a : ℚ) ≤ q) :
    a ≤ truncQ q := by
  have hq : (0 : ℚ) ≤ q := le_trans (by exact_mod_cast ha) h
  unfold truncQ
  rw [if_pos hq]
  exact Int.le_floor.mpr h

lemma truncQ_le_of_le {a : ℤ} {q : ℚ} (h0 : 0 ≤ q) (h : q ≤ (a : ℚ)) :
    truncQ q ≤ a := by
  unfold truncQ
  rw [if_pos h0]
  exact_mod_cast (Int.floor_le q).trans h

lemma abs_sub_truncQ_lt_one (q : ℚ) : |q - (truncQ q : ℚ)| < 1 := by
  unfold truncQ
  split
  · rw [abs_lt]
    constructor <;> push_cast <;>
      [linarith [Int.floor_le q]; linarith [Int.sub_one_lt_floor q]]
  · rw [abs_lt]
    constructor <;> push_cast <;>
      [linarith [Int.ceil_lt_add_one q]; linarith [Int.le_ceil q]]

lemma graph_width_eval : GRAPH_WIDTH = 700 := by
  norm_num [GRAPH_WIDTH, WIDTH]

lemma graph_margin_eval : GRAPH_MARGIN = 50 := by
  norm_num [GRAPH_MARGIN, GRAPH_WIDTH, WIDTH]

lemma cp_create_eval (p : ℚ × ℚ) (a b : ℤ)
    (h1 : p.1 * GRAPH_WIDTH + GRAPH_MARGIN = (a : ℚ))
    (h2 : (1 - p.2) * GRAPH_WIDTH + GRAPH_MARGIN = (b : ℚ)) (d : ℤ) :
    Control_Point.create p d = ⟨a, b, d, false⟩ := by
  unfold Control_Point.create
  rw [h1, h2, truncQ_intCast, truncQ_intCast]

lemma bezierPoint_zero (q1 q2 : ℚ × ℚ) : bezierPoint q1 q2 0 = (0, 1) := by
  simp [bezierPoint, vectoradd, vectormult]

lemma bezierPoint_one (q1 q2 : ℚ × ℚ) : bezierPoint q1 q2 1 = (1, 0) := by
  simp [bezierPoint, vectoradd, vectormult]

/-- The sampling loop started at `t` runs exactly `m + 1` more iterations,
where `m` is the number of further steps that stay within `1 + g`. -/
lemma calcLoop_eq_range (q1 q2 : ℚ × ℚ) (g : ℚ) (hg : 0 < g) :
    ∀ (m : ℕ) (t : ℚ), t + m * g ≤ 1 + g → 1 + g < t + (m + 1) * g →
      calcLoop q1 q2 g t =
        (List.range (m + 1)).map
          (fun k : ℕ => bezierPoint q1 q2 (t + (k : ℚ) * g)) := by
  intro m
  induction m with
  | zero =>
    intro t h1 h2
    push_cast at h1 h2
    rw [calcLoop, dif_pos ⟨hg, by linarith⟩, calcLoop, dif_neg]
    · simp [List.range_succ]
    · rintro ⟨-, hle⟩
      linarith
  | succ m ih =>
    intro t h1 h2
    push_cast at h1 h2
    have hmg : (0 : ℚ) ≤ (m : ℚ) * g := mul_nonneg (by positivity) hg.le
    have ht : t ≤ 1 + g := by nlinarith
    rw [calcLoop, dif_pos ⟨hg, ht⟩, ih (t + g) (by push_cast; linarith)
      (by push_cast; linarith)]
    conv_rhs => rw [List.range_succ_eq_map]
    simp only [List.map_cons, List.map_map]
    congr 1
    · norm_num
    · apply List.map_congr_left
      intro k _
      simp only [Function.comp_apply]
      congr 1
      push_cast
      ring

/-- With granularity `1/N` the loop from `t = 0` produces exactly the
`N + 2` samples at parameters `k / N`, `k = 0, …, N + 1`. -/
lemma calcLoop_from_zero (q1 q2 : ℚ × ℚ) (N : ℕ) (hN : 0 < N) :
    calcLoop q1 q2 (1 / (N : ℚ)) 0 =
      (List.range (N + 2)).map
        (fun k : ℕ => bezierPoint q1 q2 ((k : ℚ) / N)) := by
  have hNQ : (0 : ℚ) < N := by exact_mod_cast hN
  have hNQ' : (N : ℚ) ≠ 0 := hNQ.ne'
  have hg : 0 < 1 / (N : ℚ) := by positivity
  have h1 : (0 : ℚ) + ((N : ℚ) + 1) * (1 / N) ≤ 1 + 1 / N := by
    rw [mul_one_div, zero_add, add_div, div_self hNQ']
  have h2 : (1 : ℚ) + 1 / N < 0 + ((N : ℚ) + 1 + 1) * (1 / N) := by
    rw [mul_one_div, zero_add, add_div, add_div, div_self hNQ']
    have : (1 : ℚ) / N < 1 / N + 1 / N := by linarith
    linarith
  rw [calcLoop_eq_range q1 q2 _ hg (N + 1) 0 (by push_cast; exact h1)
    (by push_cast; exact h2)]
  apply List.map_congr_left
  intro k _
  congr 1
  rw [zero_add, mul_one_div]

/-- Characterization of `generate_bezier` when the stored granularity is `1/N`. -/
lemma generate_points (b : Bezier) (N : ℕ) (hN : 0 < N)
    (hg : b.granularity = 1 / (N : ℚ)) :
    b.generate_bezier.points =
      (List.range (N + 2)).map
        (fun k : ℕ =>
          scalePoint (bezierPoint b.p1.normalize b.p2.normalize ((k : ℚ) / N))) := by
  unfold Bezier.generate_bezier
  rw [hg, calcLoop_from_zero _ _ N hN, List.map_map]
  rfl

/-- C9: for every delta, calling `drag` (`Control_Point.update`) on a
control point whose `selected` flag is false returns false and leaves its
region (center position and size) unchanged. -/
theorem drag_noop_when_idle (c : Control_Point) (delta : ℤ × ℤ)
    (h : c.selected = false) : c.update delta = (false, c) := by
  simp [Control_Point.update, h]

/-- Witness for C9 at a concrete idle control point and delta. -/
theorem drag_noop_when_idle_witness :
    (⟨100, 200, 15, false⟩ : Control_Point).selected = false ∧
      (⟨100, 200, 15, false⟩ : Control_Point).update (3, -4) =
        (false, ⟨100, 200, 15, false⟩) :=
  ⟨rfl, drag_noop_when_idle ⟨100, 200, 15, false⟩ (3, -4) rfl⟩

/-- C7: dragging a selected control point with a delta whose x component
would push the region center's x beyond `[50, 750]`
(`[GRAPH_MARGIN, GRAPH_SIZE]`) pins x exactly to the nearest bound, moves
y unclamped by exactly the delta's y component, and returns true. -/
theorem drag_horizontal_clamp (c : Control_Point) (delta : ℤ × ℤ)
    (hsel : c.selected = true)
    (hout : c.centerx + delta.1 < 50 ∨ 750 < c.centerx + delta.1) :
    (c.update delta).1 = true ∧
      (c.update delta).2.centerx =
        (if c.centerx + delta.1 < 50 then 50 else 750) ∧
      (c.update delta).2.centery = c.centery + delta.2 := by
  have h1 : c.update delta =
      (true,
       { c with
          centerx := max 50 (min (c.centerx + delta.1) 750)
          centery := c.centery + delta.2 }) := by
    simp [Control_Point.update, hsel]
  rw [h1]
  refine ⟨rfl, ?_, rfl⟩
  show max 50 (min (c.centerx + delta.1) 750) =
    if c.centerx + delta.1 < 50 then 50 else 750
  rcases hout with hlt | hgt <;> split <;> omega

/-- Witness for C7: a selected point at x = 700 dragged by (100, 9). -/
theorem drag_horizontal_clamp_witness :
    (⟨700, 400, 15, true⟩ : Control_Point).selected = true ∧
      (700 + (100 : ℤ) < 50 ∨ 750 < 700 + (100 : ℤ)) ∧
      (((⟨700, 400, 15, true⟩ : Control_Point).update (100, 9)).1 = true ∧
        ((⟨700, 400, 15, true⟩ : Control_Point).update (100, 9)).2.centerx =
          (if (700 : ℤ) + 100 < 50 then 50 else 750) ∧
        ((⟨700, 400, 15, true⟩ : Control_Point).update (100, 9)).2.centery =
          400 + 9) :=
  ⟨rfl, Or.inr (by decide),
    drag_horizontal_clamp ⟨700, 400, 15, true⟩ (100, 9) rfl
      (Or.inr (by decide))⟩

/-- C8: when neither control point is selected, `Bezier.update` returns
false and returns the state unchanged — in particular the sample list
`points` is identical and `generate_bezier` is not run. -/
theorem update_shortcircuit_idle (b : Bezier) (delta : ℤ × ℤ)
    (h1 : b.p1.selected = false) (h2 : b.p2.selected = false) :
    b.update delta = (false, b) ∧ (b.update delta).2.points = b.points := by
  have key : b.update delta = (false, b) := by
    simp [Bezier.update, Control_Point.update, h1, h2]
  exact ⟨key, by rw [key]⟩

/-- Witness for C8 at a concrete curve with both points idle. -/
theorem update_shortcircuit_idle_witness :
    (⟨1, ⟨750, 750, 15, false⟩, ⟨50, 50, 15, false⟩, [(50, 750)]⟩ :
        Bezier).p1.selected = false ∧
      (⟨1, ⟨750, 750, 15, false⟩, ⟨50, 50, 15, false⟩, [(50, 750)]⟩ :
        Bezier).p2.selected = false ∧
      ((⟨1, ⟨750, 750, 15, false⟩, ⟨50, 50, 15, false⟩, [(50, 750)]⟩ :
            Bezier).update (7, -3) =
          (false,
            ⟨1, ⟨750, 750, 15, false⟩, ⟨50, 50, 15, false⟩, [(50, 750)]⟩) ∧
        ((⟨1, ⟨750, 750, 15, false⟩, ⟨50, 50, 15, false⟩, [(50, 750)]⟩ :
              Bezier).update (7, -3)).2.points = [((50 : ℚ), (750 : ℚ))]) :=
  ⟨rfl, rfl,
    update_shortcircuit_idle
      ⟨1, ⟨750, 750, 15, false⟩, ⟨50, 50, 15, false⟩, [(50, 750)]⟩ (7, -3)
      rfl rfl⟩

/-- C2 (counterexample): with both control points selected and delta
`(0, 10)`, a single `Bezier.update` leaves p2's center unchanged (y stays
50), even though forwarding the delta to `p2.drag` would have moved it to
60: Python's `or` short-circuits, so the delta is *not* forwarded to both
points and they do not drag together. -/
theorem update_does_not_drag_both :
    ((⟨1, ⟨750, 750, 15, true⟩, ⟨50, 50, 15, true⟩, []⟩ :
          Bezier).update (0, 10)).2.p2 = ⟨50, 50, 15, true⟩ ∧
      ((⟨50, 50, 15, true⟩ : Control_Point).update (0, 10)).2.centery = 60 := by
  constructor
  · rfl
  · rfl

/-- C2 (amended): `Bezier.update` always forwards the delta to `p1.drag`;
because of short-circuit evaluation it forwards the delta to `p2.drag`
only when p1 is not selected, so when both points are selected only p1
moves; the returned flag is true iff at least one point is selected. -/
theorem update_forwards_characterization (b : Bezier) (delta : ℤ × ℤ) :
    (b.update delta).2.p1 = (b.p1.update delta).2 ∧
      (b.update delta).2.p2 =
        (if b.p1.selected then b.p2 else (b.p2.update delta).2) ∧
      (b.update delta).1 = (b.p1.selected || b.p2.selected) := by
  cases hb1 : b.p1.selected <;> cases hb2 : b.p2.selected <;>
    simp [Bezier.update, Control_Point.update, hb1, hb2, Bezier.generate_bezier]

/-- C10: when a selected control point sits pinned at a horizontal bound
and the drag delta pushes x further past that bound with zero y component,
the drag returns true while leaving the point unchanged; consequently
`Bezier.update` reports a change and regenerates the samples even though
no control point moved. -/
theorem pinned_drag_reports_change (b : Bezier) (delta : ℤ × ℤ)
    (hsel : b.p1.selected = true)
    (hpin : (b.p1.centerx = 750 ∧ 0 < delta.1) ∨
      (b.p1.centerx = 50 ∧ delta.1 < 0))
    (hy : delta.2 = 0) :
    b.p1.update delta = (true, b.p1) ∧
      b.update delta = (true, b.generate_bezier) := by
  have hstep : b.p1.update delta =
      (true,
       { b.p1 with
          centerx := max 50 (min (b.p1.centerx + delta.1) 750)
          centery := b.p1.centery + delta.2 }) := by
    simp [Control_Point.update, hsel]
  have hcp : b.p1.update delta = (true, b.p1) := by
    rw [hstep]
    have hx : max 50 (min (b.p1.centerx + delta.1) 750) = b.p1.centerx := by
      rcases hpin with ⟨hx, hd⟩ | ⟨hx, hd⟩ <;> rw [hx] <;> omega
    have hy : b.p1.centery + delta.2 = b.p1.centery := by omega
    rw [hx, hy]
  refine ⟨hcp, ?_⟩
  simp only [Bezier.update, hcp]
  rfl

/-- Witness for C10: p1 pinned at the right bound x = 750, delta (5, 0). -/
theorem pinned_drag_reports_change_witness :
    (⟨1, ⟨750, 300, 15, true⟩, ⟨50, 50, 15, false⟩, []⟩ :
        Bezier).p1.selected = true ∧
      ((((⟨1, ⟨750, 300, 15, true⟩, ⟨50, 50, 15, false⟩, []⟩ :
          Bezier).p1.centerx = 750 ∧ (0 : ℤ) < 5) ∨
        ((⟨1, ⟨750, 300, 15, true⟩, ⟨50, 50, 15, false⟩, []⟩ :
          Bezier).p1.centerx = 50 ∧ (5 : ℤ) < 0))) ∧
      ((⟨1, ⟨750, 300, 15, true⟩, ⟨50, 50, 15, false⟩, []⟩ :
            Bezier).p1.update (5, 0) = (true, ⟨750, 300, 15, true⟩) ∧
        (⟨1, ⟨750, 300, 15, true⟩, ⟨50, 50, 15, false⟩, []⟩ :
            Bezier).update (5, 0) =
          (true,
            (⟨1, ⟨750, 300, 15, true⟩, ⟨50, 50, 15, false⟩, []⟩ :
              Bezier).generate_bezier)) :=
  ⟨rfl, Or.inl ⟨rfl, by decide⟩,
    pinned_drag_reports_change
      ⟨1, ⟨750, 300, 15, true⟩, ⟨50, 50, 15, false⟩, []⟩ (5, 0) rfl
      (Or.inl ⟨rfl, by decide⟩) rfl⟩

lemma create_10 : Control_Point.create (1, 0) 15 = ⟨750, 750, 15, false⟩ :=
  cp_create_eval (1, 0) 750 750
    (by norm_num [GRAPH_WIDTH, GRAPH_MARGIN, WIDTH])
    (by norm_num [GRAPH_WIDTH, GRAPH_MARGIN, WIDTH]) 15

lemma create_01 : Control_Point.create (0, 1) 15 = ⟨50, 50, 15, false⟩ :=
  cp_create_eval (0, 1) 50 50
    (by norm_num [GRAPH_WIDTH, GRAPH_MARGIN, WIDTH])
    (by norm_num [GRAPH_WIDTH, GRAPH_MARGIN, WIDTH]) 15

lemma normalize_750 :
    (⟨750, 750, 15, false⟩ : Control_Point).normalize = (1, 1) := by
  norm_num [Control_Point.normalize, graph_width_eval, graph_margin_eval]

lemma normalize_50 :
    (⟨50, 50, 15, false⟩ : Control_Point).normalize = (0, 0) := by
  norm_num [Control_Point.normalize, graph_width_eval, graph_margin_eval]

/-- Value of `get_control_points` on the startup curve `Bezier((1,0),(0,1))`. -/
lemma gcp_default :
    (Bezier.create (1, 0) (0, 1) 60).get_control_points = [1, 0, 0, 1] := by
  have h1 : (Bezier.create (1, 0) (0, 1) 60).p1 = ⟨750, 750, 15, false⟩ :=
    create_10
  have h2 : (Bezier.create (1, 0) (0, 1) 60).p2 = ⟨50, 50, 15, false⟩ :=
    create_01
  unfold Bezier.get_control_points
  rw [h1, h2, normalize_750, normalize_50]
  norm_num [round_eq]

/-- C1 (counterexample): the startup configuration does *not* yield
`(1.0, 1.0, 0.0, 0.0)` from `get_control_points`. -/
theorem default_control_points_ne :
    (Bezier.create (1, 0) (0, 1) 60).get_control_points ≠ [1, 1, 0, 0] := by
  rw [gcp_default]
  simp

/-- C1 (amended): constructing the curve with `p1 = (1,0)`, `p2 = (0,1)`
(the startup configuration) and calling `get_control_points` returns
`(1.0, 0.0, 0.0, 1.0)` after the display y-flip and rounding to two
decimal places. -/
theorem default_control_points :
    (Bezier.create (1, 0) (0, 1) 60).get_control_points = [1, 0, 0, 1] :=
  gcp_default

/-- C6 (counterexample): constructing a control point from the normalized
position `(0, 1)` and calling `normalize` returns `(0, 0)`, which is not
within any reasonable tolerance of `(0, 1)`: the y component is off by 1. -/
theorem normalize_roundtrip_counterexample :
    (Control_Point.create (0, 1) 15).normalize = (0, 0) ∧
      ¬|(Control_Point.create (0, 1) 15).normalize.2 - 1| < 1 / 2 := by
  rw [create_01, normalize_50]
  norm_num

/-- C6 (amended): `normalize` after construction from `p` recovers
`(p.x, 1 - p.y)` — the construction's y-flip is *not* undone by
`normalize` — with each component within `1/700` (one pixel of rect
truncation) of that value. -/
theorem normalize_roundtrip_flipped (p : ℚ × ℚ) :
    |(Control_Point.create p 15).normalize.1 - p.1| < 1 / 700 ∧
      |(Control_Point.create p 15).normalize.2 - (1 - p.2)| < 1 / 700 := by
  have h700 : |(700 : ℚ)| = 700 := by norm_num
  constructor
  · have h := abs_sub_truncQ_lt_one (p.1 * 700 + 50)
    rw [abs_sub_comm] at h
    have e : (Control_Point.create p 15).normalize.1 - p.1 =
        ((truncQ (p.1 * 700 + 50) : ℚ) - (p.1 * 700 + 50)) / 700 := by
      simp only [Control_Point.create, Control_Point.normalize,
        graph_width_eval, graph_margin_eval]
      ring
    rw [e, abs_div, h700]
    gcongr
  · have h := abs_sub_truncQ_lt_one ((1 - p.2) * 700 + 50)
    rw [abs_sub_comm] at h
    have e : (Control_Point.create p 15).normalize.2 - (1 - p.2) =
        ((truncQ ((1 - p.2) * 700 + 50) : ℚ) - ((1 - p.2) * 700 + 50)) / 700 := by
      simp only [Control_Point.create, Control_Point.normalize,
        graph_width_eval, graph_margin_eval]
      ring
    rw [e, abs_div, h700]
    gcongr

lemma applyOp_x_bounds (c : Control_Point) (op : CPOp)
    (h1 : 50 ≤ c.centerx) (h2 : c.centerx ≤ 750) :
    50 ≤ (applyOp c op).centerx ∧ (applyOp c op).centerx ≤ 750 := by
  cases op with
  | click pos =>
    simp only [applyOp]
    unfold Control_Point.check_click
    split
    · exact ⟨h1, h2⟩
    · exact ⟨h1, h2⟩
  | drag rel =>
    have h : (c.update rel).2.centerx = c.centerx ∨
        (c.update rel).2.centerx = max 50 (min (c.centerx + rel.1) 750) := by
      unfold Control_Point.update
      cases hsel : c.selected
      · left
        simp [hsel]
      · right
        simp [hsel]
    simp only [applyOp]
    rcases h with h | h <;> rw [h] <;> omega
  | deselect =>
    simp only [applyOp]
    exact ⟨h1, h2⟩

lemma applyOps_x_bounds : ∀ (ops : List CPOp) (c : Control_Point),
    50 ≤ c.centerx → c.centerx ≤ 750 →
    50 ≤ (applyOps c ops).centerx ∧ (applyOps c ops).centerx ≤ 750 := by
  intro ops
  induction ops with
  | nil => intro c h1 h2; exact ⟨h1, h2⟩
  | cons op rest ih =>
    intro c h1 h2
    have h := applyOp_x_bounds c op h1 h2
    exact ih (applyOp c op) h.1 h.2

lemma create_centerx_bounds (p : ℚ × ℚ) (h0 : 0 ≤ p.1) (h1 : p.1 ≤ 1) :
    50 ≤ (Control_Point.create p 15).centerx ∧
      (Control_Point.create p 15).centerx ≤ 750 := by
  unfold Control_Point.create
  rw [graph_width_eval, graph_margin_eval]
  constructor
  · apply le_truncQ_of_le (by norm_num)
    push_cast
    nlinarith
  · apply truncQ_le_of_le (by nlinarith)
    push_cast
    nlinarith

lemma create_centery_ge (p : ℚ × ℚ) (h : p.2 ≤ 1) :
    50 ≤ (Control_Point.create p 15).centery := by
  unfold Control_Point.create
  rw [graph_width_eval, graph_margin_eval]
  apply le_truncQ_of_le (by norm_num)
  push_cast
  nlinarith

lemma click_center_drag_escape (c : Control_Point) (hd : c.diameter = 15)
    (hy : 50 ≤ c.centery) :
    750 <
      (applyOps c
        [CPOp.click (c.centerx, c.centery), CPOp.drag (0, 1000000)]).centery := by
  have hclick : applyOp c (CPOp.click (c.centerx, c.centery)) =
      { c with selected := true } := by
    simp only [applyOp]
    unfold Control_Point.check_click
    rw [hd, if_pos (by omega)]
  have hsteps : applyOps c
      [CPOp.click (c.centerx, c.centery), CPOp.drag (0, 1000000)] =
      applyOp (applyOp c (CPOp.click (c.centerx, c.centery)))
        (CPOp.drag (0, 1000000)) := rfl
  rw [hsteps, hclick]
  simp only [applyOp]
  unfold Control_Point.update
  simp
  omega

/-- C5: for every control point constructed from a normalized position in
`[0,1] × [0,1]`, after any sequence of hit-test, drag and deselect
operations the x coordinate of the region's center stays within the
graph's horizontal drawing bounds `[50, 750]`
(`[GRAPH_MARGIN, GRAPH_MARGIN + GRAPH_WIDTH]`), while the y coordinate is
unconstrained: some operation sequence pushes it past the vertical
bounds. -/
theorem horizontal_invariant (p : ℚ × ℚ) (h0 : 0 ≤ p.1) (h1 : p.1 ≤ 1)
    (h2 : 0 ≤ p.2) (h3 : p.2 ≤ 1) :
    (∀ ops : List CPOp,
      50 ≤ (applyOps (Control_Point.create p 15) ops).centerx ∧
        (applyOps (Control_Point.create p 15) ops).centerx ≤ 750) ∧
    ∃ ops : List CPOp,
      750 < (applyOps (Control_Point.create p 15) ops).centery := by
  obtain ⟨hb1, hb2⟩ := create_centerx_bounds p h0 h1
  refine ⟨fun ops => applyOps_x_bounds ops _ hb1 hb2, ?_⟩
  exact ⟨_, click_center_drag_escape (Control_Point.create p 15) rfl
    (create_centery_ge p h3)⟩

/-- Witness for C5 at the normalized position `(0, 0)`. -/
theorem horizontal_invariant_witness :
    (0 : ℚ) ≤ 0 ∧ (0 : ℚ) ≤ 1 ∧
      ((∀ ops : List CPOp,
          50 ≤ (applyOps (Control_Point.create (0, 0) 15) ops).centerx ∧
            (applyOps (Control_Point.create (0, 0) 15) ops).centerx ≤ 750) ∧
        ∃ ops : List CPOp,
          750 < (applyOps (Control_Point.create (0, 0) 15) ops).centery) :=
  ⟨le_refl 0, zero_le_one,
    horizontal_invariant (0, 0) (le_refl 0) zero_le_one (le_refl 0)
      zero_le_one⟩

/-- C4: with granularity `1/N` (N positive), `generate_bezier` produces at
least `N + 1` samples — the loop's overshoot in fact yields `N + 2`. -/
theorem sample_count_overshoot (b : Bezier) (N : ℕ) (hN : 0 < N)
    (hg : b.granularity = 1 / (N : ℚ)) :
    N + 1 ≤ b.generate_bezier.points.length := by
  rw [generate_points b N hN hg]
  simp

/-- Witness for C4 at N = 3 on a concrete curve state. -/
theorem sample_count_overshoot_witness :
    0 < 3 ∧
      (⟨1 / ((3 : ℕ) : ℚ), ⟨750, 750, 15, false⟩, ⟨50, 50, 15, false⟩, []⟩ :
        Bezier).granularity = 1 / ((3 : ℕ) : ℚ) ∧
      3 + 1 ≤
        (⟨1 / ((3 : ℕ) : ℚ), ⟨750, 750, 15, false⟩, ⟨50, 50, 15, false⟩, []⟩ :
          Bezier).generate_bezier.points.length :=
  ⟨by decide, rfl,
    sample_count_overshoot
      ⟨1 / ((3 : ℕ) : ℚ), ⟨750, 750, 15, false⟩, ⟨50, 50, 15, false⟩, []⟩ 3
      (by decide) rfl⟩

/-- C3 (amended): for every control-point configuration and positive N,
the first generated sample is the screen image of `p0 = (0,1)` and the
sample at index N (parameter t = 1) is the screen image of `p3 = (1,0)`;
the *final* sample sits at the overshoot parameter `t = 1 + 1/N` and in
general is not the image of `p3`. -/
theorem endpoint_samples (b : Bezier) (N : ℕ) (hN : 0 < N)
    (hg : b.granularity = 1 / (N : ℚ)) :
    b.generate_bezier.points[0]? = some (scalePoint (0, 1)) ∧
      b.generate_bezier.points[N]? = some (scalePoint (1, 0)) := by
  have hNQ : ((N : ℚ)) ≠ 0 := by
    exact_mod_cast hN.ne'
  rw [generate_points b N hN hg]
  constructor
  · rw [List.getElem?_map, List.getElem?_range (by omega)]
    simp [bezierPoint_zero]
  · rw [List.getElem?_map, List.getElem?_range (by omega)]
    simp [div_self hNQ, bezierPoint_one]

/-- Witness for C3's amended statement at N = 2 on a concrete curve. -/
theorem endpoint_samples_witness :
    0 < 2 ∧
      (⟨1 / ((2 : ℕ) : ℚ), ⟨750, 750, 15, false⟩, ⟨50, 50, 15, false⟩, []⟩ :
        Bezier).granularity = 1 / ((2 : ℕ) : ℚ) ∧
      ((⟨1 / ((2 : ℕ) : ℚ), ⟨750, 750, 15, false⟩, ⟨50, 50, 15, false⟩, []⟩ :
          Bezier).generate_bezier.points[0]? = some (scalePoint (0, 1)) ∧
        (⟨1 / ((2 : ℕ) : ℚ), ⟨750, 750, 15, false⟩, ⟨50, 50, 15, false⟩, []⟩ :
          Bezier).generate_bezier.points[2]? = some (scalePoint (1, 0))) :=
  ⟨by decide, rfl,
    endpoint_samples
      ⟨1 / ((2 : ℕ) : ℚ), ⟨750, 750, 15, false⟩, ⟨50, 50, 15, false⟩, []⟩ 2
      (by decide) rfl⟩

/-- The last sample of the startup configuration run at granularity 1. -/
lemma last_sample_default :
    (Bezier.create (1, 0) (0, 1) 1).points.getLast? = some (9850, 3550) := by
  have e1 : Bezier.create (1, 0) (0, 1) 1 =
      Bezier.generate_bezier
        ⟨1 / ((1 : ℕ) : ℚ), ⟨750, 750, 15, false⟩, ⟨50, 50, 15, false⟩,
          []⟩ := by
    unfold Bezier.create
    rw [create_10, create_01]
  rw [e1, generate_points _ 1 (by decide) rfl]
  simp only [normalize_750, normalize_50]
  rw [show List.range (1 + 2) = [0, 1, 2] from rfl, List.map_cons,
    List.map_cons, List.map_cons, List.map_nil]
  norm_num [bezierPoint, scalePoint, vectoradd, vectormult,
    graph_width_eval, graph_margin_eval, List.getLast?_cons_cons,
    List.getLast?_singleton]

/-- C3 (counterexample): at the startup control points with granularity
`1/1`, the last generated sample is `(9850, 3550)`, while the screen image
of the endpoint `p3 = (1,0)` is `(750, 50)` — off by far more than any
floating-point tolerance, because the final loop iteration evaluates the
curve at the overshoot parameter `t = 2`. -/
theorem last_sample_not_endpoint :
    (Bezier.create (1, 0) (0, 1) 1).points.getLast? = some (9850, 3550) ∧
      scalePoint (1, 0) = (750, 50) ∧
      ((9850 : ℚ), (3550 : ℚ)) ≠ ((750 : ℚ), (50 : ℚ)) := by
  refine ⟨last_sample_default, ?_, ?_⟩
  · norm_num [scalePoint, vectoradd, vectormult, graph_width_eval,
      graph_margin_eval]
  · simp
